import Mathlib

/-!
Shallow embedding of the gitlab-extra-exporter repository (the latest
variant of the sources: `src/unnamed/part_003` for project listing,
`src/unnamed/part_004` for merge-request listing / enrichment / approvals /
changes, `src/unnamed/part_005` for the fetch cycle and cache, and the
second half of `src/unnamed/part_007` for the Prometheus collector).

The GitLab HTTP API is modelled as an oracle (`GitlabAPI`); every Go
function that talks to the API becomes a pure Lean function of that oracle.
Go `*time.Time` pointers become `Option GoTime`, machine int64 arithmetic is
`Int` with explicit saturation at the int64 bounds, and float64 metric
values are carried exactly as rationals.
-/

namespace GitlabExporter

/-! ## Go primitives: int64 durations, times, number parsing -/

def minInt64 : Int := -9223372036854775808

def maxInt64 : Int := 9223372036854775807

/-- Saturating clamp into the int64 range, as `time.Time.Sub` does when the
difference of two times overflows a `time.Duration`. -/
def satInt64 (x : Int) : Int := max minInt64 (min maxInt64 x)

/-- A Go `time.Time`, represented by its count of nanoseconds since the Unix
epoch (the wall-clock reading; monotonic clock is irrelevant here). -/
structure GoTime where
  ns : Int
deriving DecidableEq

/-- Nanoseconds-since-epoch of the Go zero value `time.Time{}`,
i.e. January 1, year 1, 00:00:00 UTC: -62135596800 seconds. -/
def zeroTimeNs : Int := -62135596800 * 1000000000

/-- `t.Sub(u)` as a nanosecond count: the exact difference, saturated to the
int64 `time.Duration` range. -/
def goTimeSubNs (t u : GoTime) : Int := satInt64 (t.ns - u.ns)

/-- Models `d2, err := time.ParseDuration(d.String())` with `err` discarded
(as the enrichment code does): `Duration.String` prints the exact value and
`ParseDuration` recovers every representable duration except the minimum
one, whose magnitude 2^63 overflows the parser's accumulator in Go 1.15
(the repository's toolchain, golang issue 39477), leaving the zero value. -/
def parseRoundTripNs (d : Int) : Int := if d = minInt64 then 0 else d

/-- `time.Duration.Seconds()` of a nanosecond count, as an exact rational
(float64 rounding of the final value is abstracted away). -/
def durationSecondsQ (d : Int) : ℚ := (d : ℚ) / 1000000000

/-- `time.Time.Unix()`: whole seconds since the epoch.  With `ns` the total
nanosecond count and the sub-second part non-negative, this is floor
division. -/
def goUnixSeconds (t : GoTime) : Int := Int.fdiv t.ns 1000000000

/-- `time.Since(t)` evaluated when the current wall clock reads `now`
nanoseconds since the epoch: the difference as a saturated duration. -/
def goSinceNs (now : Int) (t : GoTime) : Int := satInt64 (now - t.ns)

/-- `time.Duration.Round(time.Second)` on a nanosecond count: round to the
nearest multiple of 1e9 ns, halves away from zero, saturating on
overflow. -/
def goRoundSecondNs (d : Int) : Int :=
  let r := Int.tmod d 1000000000
  if 2 * r.natAbs < 1000000000 then d - r
  else if d < 0 then satInt64 (d - r - 1000000000)
  else satInt64 (d - r + 1000000000)

/-- Reads leading decimal digits: accumulated value, number of digits
consumed, rest of the input. -/
def takeDigits : List Char → Nat → Nat → Nat × Nat × List Char
  | [], v, n => (v, n, [])
  | c :: cs, v, n =>
    if c.isDigit then takeDigits cs (10 * v + (c.toNat - 48)) (n + 1)
    else (v, n, c :: cs)

/-- Models `strconv.ParseFloat(s, 64)` on the decimal forms the exporter can
meet: optional sign, digits with optional fractional part, optional
decimal exponent, full-string match required; the result is the exact
rational value of the literal (float64 rounding, hex-float / Inf / NaN
spellings and digit-group underscores are outside the model).  `none`
models a parse error, in which case Go returns the zero float. -/
def goParseFloat (s : String) : Option ℚ :=
  let cs := s.data
  let signRest : ℚ × List Char :=
    match cs with
    | '+' :: rest => (1, rest)
    | '-' :: rest => (-1, rest)
    | _ => (1, cs)
  let ipart := takeDigits signRest.2 0 0
  let fpart :=
    match ipart.2.2 with
    | '.' :: rest => takeDigits rest 0 0
    | _ => (0, 0, ipart.2.2)
  if ipart.2.1 + fpart.2.1 = 0 then none
  else
    let mant : ℚ := signRest.1 * ((ipart.1 : ℚ) + (fpart.1 : ℚ) / (10 : ℚ) ^ fpart.2.1)
    match fpart.2.2 with
    | [] => some mant
    | e :: rest =>
      if e = 'e' ∨ e = 'E' then
        let esignRest : Int × List Char :=
          match rest with
          | '+' :: r => (1, r)
          | '-' :: r => (-1, r)
          | _ => (1, rest)
        let epart := takeDigits esignRest.2 0 0
        if epart.2.1 = 0 then none
        else
          match epart.2.2 with
          | [] => some (mant * (10 : ℚ) ^ (esignRest.1 * (epart.1 : Int)))
          | _ => none
      else none

/-- `strings.Count(hay, sub)`: non-overlapping occurrences, scanning left to
right; for an empty pattern Go returns 1 + the number of runes. -/
def countOcc (sub : List Char) : List Char → Nat
  | [] => if sub.isEmpty then 1 else 0
  | c :: rest =>
    if sub.isEmpty then 1 + (c :: rest).length
    else if sub.isPrefixOf (c :: rest) then
      1 + countOcc sub (rest.drop (sub.length - 1))
    else countOcc sub rest
termination_by l => l.length
decreasing_by
  · simp only [List.length_drop, List.length_cons]
    omega
  · simp only [List.length_cons]
    omega

/-! ## Upstream API payloads (the fields of the `xanzy/go-gitlab` structs the
exporter reads) and the API oracle -/

/-- The fields of `gitlab.Project` read by `getProjects`. -/
structure GoProject where
  ID : Int
  PathWithNamespace : String
deriving DecidableEq

/-- The fields of a `gitlab.MergeRequest` list entry read by
`getMergeRequest`. -/
structure GoMergeRequest where
  ID : Int
  IID : Int
  ProjectID : Int
  State : String
  TargetBranch : String
  SourceBranch : String
  Title : String
deriving DecidableEq

/-- The fields of the `gitlab.MergeRequest` detail payload read by the three
enrichment tasks.  `AssigneesLen` stands for `len(result.Assignees)`. -/
structure GoMergeRequestDetail where
  ID : Int
  IID : Int
  ProjectID : Int
  CreatedAt : Option GoTime
  UpdatedAt : Option GoTime
  MergedAt : Option GoTime
  ClosedAt : Option GoTime
  ChangesCount : String
  AssigneesLen : Int
  MergeError : String
  SourceBranch : String
deriving DecidableEq

/-- The field of `gitlab.MergeRequestApprovals` configuration read by
`getApprovals`. -/
structure GoApproval where
  ApprovalsLeft : Int
deriving DecidableEq

/-- One entry of `compareResult.Diffs`. -/
structure GoDiff where
  Diff : String
deriving DecidableEq

/-- The fields of the `gitlab.Compare` payload read by `getChanges`. -/
structure GoCompare where
  Diffs : List GoDiff
deriving DecidableEq

/-- Oracle for one fetch cycle's view of the GitLab API.  Each field models
one client call; `Except.error` is a transport/HTTP failure.  Fixed request
options that do not vary across calls (`UpdatedAfter` = now − 7 days,
`TargetBranch` "master", `Scope` "all", `WIP` "no", `Archived` false,
`Simple` true) are absorbed into the oracle. -/
structure GitlabAPI where
  /-- `gitlab.NewClient(...)`: client construction. -/
  newClient : Except String Unit
  /-- `c.Projects.ListProjects` at (page, perPage). -/
  listProjects : Nat → Nat → Except String (List GoProject)
  /-- `c.MergeRequests.ListMergeRequests` at (page, perPage). -/
  listMergeRequests : Nat → Nat → Except String (List GoMergeRequest)
  /-- `c.MergeRequests.GetMergeRequest` at (projectID, internal id). -/
  getMergeRequest : String → Int → Except String GoMergeRequestDetail
  /-- `c.MergeRequestApprovals.GetConfiguration` at (projectID, internal id). -/
  getApprovalConfiguration : String → Int → Except String GoApproval
  /-- `c.Repositories.Compare` at (projectID, from, to). -/
  compare : String → String → String → Except String GoCompare

/-! ## package client: data model (src/unnamed/part_003, part_004, part_005) -/

namespace client

/-- `ProjectStats` (src/unnamed/part_003). -/
structure ProjectStats where
  ID : String
  PathWithNamespace : String
deriving DecidableEq

/-- `MergeRequestStats` (src/unnamed/part_004). -/
structure MergeRequestStats where
  ID : String
  InternalID : Int
  State : String
  TargetBranch : String
  SourceBranch : String
  ProjectID : String
  ChangeCount : String
  Title : String
  LastUpdated : Option GoTime
  CreatedAt : Option GoTime
  Assignees : Int
deriving DecidableEq

/-- `MergeClosedStats` (src/unnamed/part_004); `Duration` is the float64
seconds value, carried exactly as a rational. -/
structure MergeClosedStats where
  MergeRequest : MergeRequestStats
  ClosedAt : Option GoTime
  Duration : ℚ
deriving DecidableEq

/-- `MergeMergedStats` (src/unnamed/part_004). -/
structure MergeMergedStats where
  MergeRequest : MergeRequestStats
  MergedAt : Option GoTime
  Duration : ℚ
deriving DecidableEq

/-- `ApprovalStats` (src/unnamed/part_004). -/
structure ApprovalStats where
  Approvals : Int
  ID : String
  ProjectID : String
deriving DecidableEq

/-- `ChangeStats` (src/unnamed/part_004). -/
structure ChangeStats where
  ProjectID : String
  ID : String
  Additions : Int
  Deletions : Int
deriving DecidableEq

/-- `Stats` (src/unnamed/part_005): one snapshot.  Go's `*[]T` slice
pointers are carried as plain lists. -/
structure Stats where
  Projects : List ProjectStats
  MergeRequests : List MergeRequestStats
  MergeRequestsOpen : List MergeRequestStats
  MergeRequestsClosed : List MergeClosedStats
  MergeRequestsMerged : List MergeMergedStats
  Approvals : List ApprovalStats
  Changes : List ChangeStats
deriving DecidableEq

/-- The initial value of the global `CachedStats` (src/unnamed/part_005):
an empty-but-valid snapshot. -/
def initialCachedStats : Stats :=
  { Projects := [], MergeRequests := [], MergeRequestsOpen := []
    MergeRequestsClosed := [], MergeRequestsMerged := []
    Approvals := [], Changes := [] }

end client

/-! ## package client: operations -/

namespace client

/-- The unbounded `for` paging loop of `getProjects` (src/unnamed/part_003):
starting at `page`, request 100 items per page and accumulate until a page
comes back empty.  `fuel` bounds the number of iterations of the shallow
embedding; `none` means the loop did not terminate within `fuel` pages. -/
def getProjectsLoop (api : GitlabAPI) :
    Nat → Nat → List GoProject → Option (Except String (List GoProject))
  | 0, _, _ => none
  | fuel + 1, page, acc =>
    match api.listProjects page 100 with
    | .error e => some (.error e)
    | .ok projects =>
      if projects.length = 0 then some (.ok acc)
      else getProjectsLoop api fuel (page + 1) (acc ++ projects)

/-- `getProjects` (src/unnamed/part_003): page through all projects, then
map the accumulated raw projects to `ProjectStats`. -/
def getProjects (api : GitlabAPI) (fuel : Nat) :
    Option (Except String (List ProjectStats)) :=
  match getProjectsLoop api fuel 1 [] with
  | none => none
  | some (.error e) => some (.error e)
  | some (.ok projectsTotal) =>
    some (.ok (projectsTotal.map fun project =>
      { ID := toString project.ID
        PathWithNamespace := project.PathWithNamespace }))

/-- The paging loop of `getMergeRequest` (src/unnamed/part_004), identical
in shape to the projects loop. -/
def getMergeRequestLoop (api : GitlabAPI) :
    Nat → Nat → List GoMergeRequest → Option (Except String (List GoMergeRequest))
  | 0, _, _ => none
  | fuel + 1, page, acc =>
    match api.listMergeRequests page 100 with
    | .error e => some (.error e)
    | .ok mr =>
      if mr.length = 0 then some (.ok acc)
      else getMergeRequestLoop api fuel (page + 1) (acc ++ mr)

/-- `getMergeRequest` (src/unnamed/part_004 lines 57-101): list all merge
requests of the trailing 7-day window, then map to `MergeRequestStats`.
Struct fields the Go literal does not set keep their zero values
(`""`, `nil`, `0`). -/
def getMergeRequest (api : GitlabAPI) (fuel : Nat) :
    Option (Except String (List MergeRequestStats)) :=
  match getMergeRequestLoop api fuel 1 [] with
  | none => none
  | some (.error e) => some (.error e)
  | some (.ok mrTotal) =>
    some (.ok (mrTotal.map fun mr =>
      { ProjectID := toString mr.ProjectID
        State := mr.State
        TargetBranch := mr.TargetBranch
        SourceBranch := mr.SourceBranch
        Title := mr.Title
        ID := toString mr.ID
        InternalID := mr.IID
        ChangeCount := "", LastUpdated := none, CreatedAt := none
        Assignees := 0 }))

/-- Outcome of one enrichment goroutine (src/unnamed/part_004).
`fail e` models the early `errCh <- err; return nil` path, which skips the
trailing `wg.Done()`; `panic` models a nil-pointer dereference; `ok`
models reaching the end of the loop, where `wg.Done()` is called. -/
inductive TaskOutcome (α : Type) where
  | panic
  | fail (e : String)
  | ok (xs : α)
deriving DecidableEq

/-- `getOpenMergeRequests` (src/unnamed/part_004 lines 153-181): per-item
detail fetch for the opened partition.  No pointer is dereferenced, so this
task cannot panic. -/
def getOpenMergeRequests (api : GitlabAPI) :
    List MergeRequestStats → TaskOutcome (List MergeRequestStats)
  | [] => .ok []
  | mr :: rest =>
    match api.getMergeRequest mr.ProjectID mr.InternalID with
    | .error e => .fail e
    | .ok result =>
      match getOpenMergeRequests api rest with
      | .ok rs =>
        .ok ({ ProjectID := toString result.ProjectID
               ID := toString result.ID
               InternalID := result.IID
               CreatedAt := result.CreatedAt
               LastUpdated := result.UpdatedAt
               ChangeCount := result.ChangesCount
               Assignees := result.AssigneesLen
               SourceBranch := result.SourceBranch
               State := "", TargetBranch := "", Title := "" } :: rs)
      | o => o

/-- `getMergedMergeRequests` (src/unnamed/part_004 lines 183-217).  When
the detail reports no merge error, the Go code computes
`duration, _ := time.ParseDuration(result.MergedAt.Sub(*result.CreatedAt).String())`
with no nil check: a nil `MergedAt` (method receiver) or nil `CreatedAt`
dereference panics. -/
def getMergedMergeRequests (api : GitlabAPI) :
    List MergeRequestStats → TaskOutcome (List MergeMergedStats)
  | [] => .ok []
  | mr :: rest =>
    match api.getMergeRequest mr.ProjectID mr.InternalID with
    | .error e => .fail e
    | .ok result =>
      if result.MergeError = "" then
        match result.MergedAt, result.CreatedAt with
        | some mergedAt, some createdAt =>
          let durationNs := parseRoundTripNs (goTimeSubNs mergedAt createdAt)
          let entry : MergeMergedStats :=
            { MergedAt := some mergedAt
              Duration := durationSecondsQ durationNs
              MergeRequest :=
                { ProjectID := toString result.ProjectID
                  ID := toString result.ID
                  CreatedAt := result.CreatedAt
                  LastUpdated := result.UpdatedAt
                  ChangeCount := result.ChangesCount
                  Assignees := result.AssigneesLen
                  SourceBranch := result.SourceBranch
                  InternalID := 0, State := "", TargetBranch := "", Title := "" } }
          match getMergedMergeRequests api rest with
          | .ok rs => .ok (entry :: rs)
          | o => o
        | _, _ => .panic
      else getMergedMergeRequests api rest

/-- `getClosedMergeRequests` (src/unnamed/part_004 lines 219-254), same
shape as the merged task with `ClosedAt` as the outcome timestamp. -/
def getClosedMergeRequests (api : GitlabAPI) :
    List MergeRequestStats → TaskOutcome (List MergeClosedStats)
  | [] => .ok []
  | mr :: rest =>
    match api.getMergeRequest mr.ProjectID mr.InternalID with
    | .error e => .fail e
    | .ok result =>
      if result.MergeError = "" then
        match result.ClosedAt, result.CreatedAt with
        | some closedAt, some createdAt =>
          let durationNs := parseRoundTripNs (goTimeSubNs closedAt createdAt)
          let entry : MergeClosedStats :=
            { ClosedAt := some closedAt
              Duration := durationSecondsQ durationNs
              MergeRequest :=
                { ProjectID := toString result.ProjectID
                  ID := toString result.ID
                  CreatedAt := result.CreatedAt
                  LastUpdated := result.UpdatedAt
                  ChangeCount := result.ChangesCount
                  Assignees := result.AssigneesLen
                  SourceBranch := result.SourceBranch
                  InternalID := 0, State := "", TargetBranch := "", Title := "" } }
          match getClosedMergeRequests api rest with
          | .ok rs => .ok (entry :: rs)
          | o => o
        | _, _ => .panic
      else getClosedMergeRequests api rest

/-- The state switch at the top of `getMergeRequestsDetails`
(src/unnamed/part_004 lines 115-124): opened / merged / closed partitions
in input order; any other state goes to no partition. -/
def partitionMRs : List MergeRequestStats →
    List MergeRequestStats × List MergeRequestStats × List MergeRequestStats
  | [] => ([], [], [])
  | mr :: rest =>
    let parts := partitionMRs rest
    if mr.State = "opened" then (mr :: parts.1, parts.2.1, parts.2.2)
    else if mr.State = "merged" then (parts.1, mr :: parts.2.1, parts.2.2)
    else if mr.State = "closed" then (parts.1, parts.2.1, mr :: parts.2.2)
    else parts

def taskPanicked {α : Type} : TaskOutcome α → Bool
  | .panic => true
  | _ => false

/-- Overall outcome of `getMergeRequestsDetails` (src/unnamed/part_004
lines 104-151). -/
inductive DetailsOutcome where
  /-- An unrecovered panic in one of the goroutines kills the process. -/
  | crash
  /-- Some task took the early error return, skipping its `wg.Done()`;
  `wg.Wait()` therefore never returns. -/
  | deadlock
  /-- All three tasks ran to completion: `wg.Wait()` returns, the closed
  error channel is empty (an errored task never reaches `wg.Done()`), and
  the three result slices are returned with a nil error. -/
  | ok (mrOpen : List MergeRequestStats) (mrMerged : List MergeMergedStats)
       (mrClosed : List MergeClosedStats)
deriving DecidableEq

/-- `getMergeRequestsDetails` (src/unnamed/part_004 lines 104-151):
partition by state, run the three enrichment tasks, join on the wait
group.  The error channel has capacity 1, but a task that sends to it
returns without calling `wg.Done()`, so whenever any task fails the
`wg.Wait()` join blocks forever; the `return nil, nil, nil, err` branch is
unreachable. -/
def getMergeRequestsDetails (api : GitlabAPI) (mrs : List MergeRequestStats) :
    DetailsOutcome :=
  let parts := partitionMRs mrs
  let resultOpen := getOpenMergeRequests api parts.1
  let resultMerged := getMergedMergeRequests api parts.2.1
  let resultClosed := getClosedMergeRequests api parts.2.2
  match resultOpen, resultMerged, resultClosed with
  | .ok o, .ok m, .ok c => .ok o m c
  | ro, rm, rc =>
    if taskPanicked ro || taskPanicked rm || taskPanicked rc then .crash
    else .deadlock

/-- `getApprovals` (src/unnamed/part_004 lines 257-274): one sequential
configuration fetch per input item, aborting on the first error. -/
def getApprovals (api : GitlabAPI) :
    List MergeRequestStats → Except String (List ApprovalStats)
  | [] => .ok []
  | mr :: rest =>
    match api.getApprovalConfiguration mr.ProjectID mr.InternalID with
    | .error e => .error e
    | .ok approvals =>
      match getApprovals api rest with
      | .error e => .error e
      | .ok rs =>
        .ok ({ Approvals := approvals.ApprovalsLeft
               ID := mr.ID
               ProjectID := mr.ProjectID } :: rs)

/-- `getChanges` (src/unnamed/part_004 lines 276-306): one sequential
branch comparison (master against the source branch) per input item,
counting "\n+" and "\n-" occurrences over the diffs. -/
def getChanges (api : GitlabAPI) :
    List MergeRequestStats → Except String (List ChangeStats)
  | [] => .ok []
  | mr :: rest =>
    match api.compare mr.ProjectID "master" mr.SourceBranch with
    | .error e => .error e
    | .ok compareResult =>
      let additions := compareResult.Diffs.foldl
        (fun acc diff => acc + countOcc ['\n', '+'] diff.Diff.data) 0
      let deletions := compareResult.Diffs.foldl
        (fun acc diff => acc + countOcc ['\n', '-'] diff.Diff.data) 0
      match getChanges api rest with
      | .error e => .error e
      | .ok rs =>
        .ok ({ ID := mr.ID
               ProjectID := mr.ProjectID
               Additions := (additions : Int)
               Deletions := (deletions : Int) } :: rs)

/-- `GetStats` (src/unnamed/part_005 lines 62-65): returns the cached
snapshot with a nil error, unconditionally. -/
def GetStats (cachedStats : Stats) : Except String Stats := .ok cachedStats

/-- Outcome of one run of `getData`. -/
inductive RunOutcome where
  /-- The run never returns: a paging loop past the modelled horizon, or
  the enrichment deadlock. -/
  | hang
  /-- A nil-pointer panic inside an enrichment goroutine killed the
  process. -/
  | crash
  /-- An early `return err`. -/
  | fail (e : String)
  /-- `return nil` after the final assignment of the snapshot. -/
  | ok (s : Stats)
deriving DecidableEq

/-- `getData` (src/unnamed/part_005 lines 67-112), with the process-global
`CachedStats` passed in and returned explicitly.  The second component is
the value of `CachedStats` when the run ends (or at the point it hangs or
crashes); the only write to the global in the source is the single
assignment of the fully assembled `Stats` literal just before the
successful return. -/
def getData (api : GitlabAPI) (fuel : Nat) (cachedStats : Stats) :
    RunOutcome × Stats :=
  match api.newClient with
  | .error e => (.fail e, cachedStats)
  | .ok _ =>
  match getProjects api fuel with
  | none => (.hang, cachedStats)
  | some (.error e) => (.fail e, cachedStats)
  | some (.ok projects) =>
  match getMergeRequest api fuel with
  | none => (.hang, cachedStats)
  | some (.error e) => (.fail e, cachedStats)
  | some (.ok mrs) =>
  match getMergeRequestsDetails api mrs with
  | .crash => (.crash, cachedStats)
  | .deadlock => (.hang, cachedStats)
  | .ok mrOpen mrMerged mrClosed =>
  match getApprovals api mrOpen with
  | .error e => (.fail e, cachedStats)
  | .ok approvals =>
  match getChanges api mrOpen with
  | .error e => (.fail e, cachedStats)
  | .ok changes =>
    let s : Stats :=
      { Projects := projects
        MergeRequests := mrs
        MergeRequestsOpen := mrOpen
        MergeRequestsClosed := mrClosed
        MergeRequestsMerged := mrMerged
        Approvals := approvals
        Changes := changes }
    (.ok s, s)

end client

/-! ## package collector (second half of src/unnamed/part_007, the latest
variant) -/

namespace collector

/-- One Prometheus sample produced by `prometheus.MustNewConstMetric`:
the descriptor's metric name, the gauge value (float64, carried exactly as
a rational), and the label values in descriptor order. -/
structure Metric where
  name : String
  value : ℚ
  labelValues : List String
deriving DecidableEq

/-- The `c.up` sample: descriptor `gitlab_extra_up`, no labels. -/
def upMetric (v : ℚ) : Metric :=
  { name := "gitlab_extra_up", value := v, labelValues := [] }

/-- The changed-files gauge value computed from a `ChangeCount` string.
This snippet appears verbatim at the top of the per-item loop bodies of
`collectOpenMergeRequestMetrics`, `collectClosedMergeRequestMetrics` and
`collectMergedMergeRequestMetrics` (src/unnamed/part_007):
`changes := 0.0; if ChangeCount == "1000+" { changes = 1000 } else
{ changes, _ = strconv.ParseFloat(ChangeCount, 64) }` — on a parse error
the ignored-error assignment leaves the zero float. -/
def changedFilesValue (s : String) : ℚ :=
  if s = "1000+" then 1000
  else
    match goParseFloat s with
    | some v => v
    | none => 0

/-- `collectProjectInfo` (src/unnamed/part_007 lines 196-200). -/
def collectProjectInfo (stats : client.Stats) : List Metric :=
  stats.Projects.map fun project =>
    { name := "gitlab_project_info", value := 1
      labelValues := [project.ID, project.PathWithNamespace] }

/-- `collectMergeReqeustInfo` (sic, src/unnamed/part_007 lines 202-206):
constant 1 with identifying labels; no timestamp pointer is dereferenced
here. -/
def collectMergeReqeustInfo (stats : client.Stats) : List Metric :=
  stats.MergeRequests.map fun mr =>
    { name := "gitlab_merge_request_info", value := 1
      labelValues := [mr.ID, mr.TargetBranch, mr.State, mr.Title,
                      mr.ProjectID, toString mr.InternalID] }

/-- The per-item loop of `collectOpenMergeRequestMetrics`
(src/unnamed/part_007 lines 208-221).  The Go body dereferences
`*mr.CreatedAt` and `*mr.LastUpdated` with no nil check; `none` models the
nil-pointer panic aborting the scrape. -/
def collectOpenLoop (now : Int) :
    List client.MergeRequestStats → Option (List Metric)
  | [] => some []
  | mr :: rest =>
    match mr.CreatedAt, mr.LastUpdated with
    | some createdAt, some lastUpdated =>
      match collectOpenLoop now rest with
      | none => none
      | some ms =>
        some ({ name := "gitlab_merge_request_created"
                value := (goUnixSeconds createdAt : ℚ)
                labelValues := [mr.ID, mr.ProjectID] } ::
              { name := "gitlab_merge_request_updated"
                value := durationSecondsQ (goRoundSecondNs (goSinceNs now lastUpdated))
                labelValues := [mr.ID, mr.ProjectID] } ::
              { name := "gitlab_merge_request_changed_files"
                value := changedFilesValue mr.ChangeCount
                labelValues := [mr.ID, mr.ProjectID] } ::
              { name := "gitlab_merge_request_assignees"
                value := (mr.Assignees : ℚ)
                labelValues := [mr.ID, mr.ProjectID] } :: ms)
    | _, _ => none

/-- `collectOpenMergeRequestMetrics` (src/unnamed/part_007 lines
208-221). -/
def collectOpenMergeRequestMetrics (now : Int) (stats : client.Stats) :
    Option (List Metric) :=
  collectOpenLoop now stats.MergeRequestsOpen

/-- The per-item loop of `collectClosedMergeRequestMetrics`
(src/unnamed/part_007 lines 224-240): dereferences
`*mr.MergeRequest.CreatedAt`, `*mr.MergeRequest.LastUpdated` and
`*mr.ClosedAt` with no nil check. -/
def collectClosedLoop (now : Int) :
    List client.MergeClosedStats → Option (List Metric)
  | [] => some []
  | mr :: rest =>
    match mr.MergeRequest.CreatedAt, mr.MergeRequest.LastUpdated, mr.ClosedAt with
    | some createdAt, some lastUpdated, some closedAt =>
      match collectClosedLoop now rest with
      | none => none
      | some ms =>
        some ({ name := "gitlab_merge_request_created"
                value := (goUnixSeconds createdAt : ℚ)
                labelValues := [mr.MergeRequest.ID, mr.MergeRequest.ProjectID] } ::
              { name := "gitlab_merge_request_updated"
                value := durationSecondsQ (goRoundSecondNs (goSinceNs now lastUpdated))
                labelValues := [mr.MergeRequest.ID, mr.MergeRequest.ProjectID] } ::
              { name := "gitlab_merge_request_changed_files"
                value := changedFilesValue mr.MergeRequest.ChangeCount
                labelValues := [mr.MergeRequest.ID, mr.MergeRequest.ProjectID] } ::
              { name := "gitlab_merge_request_closed"
                value := (goUnixSeconds closedAt : ℚ)
                labelValues := [mr.MergeRequest.ID, mr.MergeRequest.ProjectID] } ::
              { name := "gitlab_merge_request_assignees"
                value := (mr.MergeRequest.Assignees : ℚ)
                labelValues := [mr.MergeRequest.ID, mr.MergeRequest.ProjectID] } ::
              { name := "gitlab_merge_request_duration"
                value := mr.Duration
                labelValues := [mr.MergeRequest.ID, mr.MergeRequest.ProjectID] } :: ms)
    | _, _, _ => none

/-- `collectClosedMergeRequestMetrics` (src/unnamed/part_007 lines
224-240). -/
def collectClosedMergeRequestMetrics (now : Int) (stats : client.Stats) :
    Option (List Metric) :=
  collectClosedLoop now stats.MergeRequestsClosed

/-- The per-item loop of `collectMergedMergeRequestMetrics`
(src/unnamed/part_007 lines 242-258): dereferences
`*mr.MergeRequest.CreatedAt`, `*mr.MergeRequest.LastUpdated` and
`*mr.MergedAt` with no nil check. -/
def collectMergedLoop (now : Int) :
    List client.MergeMergedStats → Option (List Metric)
  | [] => some []
  | mr :: rest =>
    match mr.MergeRequest.CreatedAt, mr.MergeRequest.LastUpdated, mr.MergedAt with
    | some createdAt, some lastUpdated, some mergedAt =>
      match collectMergedLoop now rest with
      | none => none
      | some ms =>
        some ({ name := "gitlab_merge_request_created"
                value := (goUnixSeconds createdAt : ℚ)
                labelValues := [mr.MergeRequest.ID, mr.MergeRequest.ProjectID] } ::
              { name := "gitlab_merge_request_updated"
                value := durationSecondsQ (goRoundSecondNs (goSinceNs now lastUpdated))
                labelValues := [mr.MergeRequest.ID, mr.MergeRequest.ProjectID] } ::
              { name := "gitlab_merge_request_changed_files"
                value := changedFilesValue mr.MergeRequest.ChangeCount
                labelValues := [mr.MergeRequest.ID, mr.MergeRequest.ProjectID] } ::
              { name := "gitlab_merge_request_merged"
                value := (goUnixSeconds mergedAt : ℚ)
                labelValues := [mr.MergeRequest.ID, mr.MergeRequest.ProjectID] } ::
              { name := "gitlab_merge_request_assignees"
                value := (mr.MergeRequest.Assignees : ℚ)
                labelValues := [mr.MergeRequest.ID, mr.MergeRequest.ProjectID] } ::
              { name := "gitlab_merge_request_duration"
                value := mr.Duration
                labelValues := [mr.MergeRequest.ID, mr.MergeRequest.ProjectID] } :: ms)
    | _, _, _ => none

/-- `collectMergedMergeRequestMetrics` (src/unnamed/part_007 lines
242-258). -/
def collectMergedMergeRequestMetrics (now : Int) (stats : client.Stats) :
    Option (List Metric) :=
  collectMergedLoop now stats.MergeRequestsMerged

/-- `collectMergeRequestApprovalMetrics` (src/unnamed/part_007 lines
260-264). -/
def collectMergeRequestApprovalMetrics (stats : client.Stats) : List Metric :=
  stats.Approvals.map fun approval =>
    { name := "gitlab_merge_request_approvals"
      value := (approval.Approvals : ℚ)
      labelValues := [approval.ID, approval.ProjectID] }

/-- `collectMergeRequestChanges` (src/unnamed/part_007 lines 266-271). -/
def collectMergeRequestChanges (stats : client.Stats) : List Metric :=
  stats.Changes.flatMap fun changes =>
    [{ name := "gitlab_merge_request_changes"
       value := (changes.Additions : ℚ)
       labelValues := [changes.ID, changes.ProjectID, "added"] },
     { name := "gitlab_merge_request_changes"
       value := (changes.Deletions : ℚ)
       labelValues := [changes.ID, changes.ProjectID, "deleted"] }]

/-- `Collect` (src/unnamed/part_007 lines 167-194): one scrape over the
cached snapshot, at wall-clock `now`.  The emitted samples are collected
into a list in channel-send order; `none` models a scrape aborted by a
nil-pointer panic in one of the per-state loops (samples sent before the
panic are lost to the aborted scrape).  `GetStats` never returns an error
in this variant, so the `up = 0` branch is dead code. -/
def Collect (now : Int) (cachedStats : client.Stats) : Option (List Metric) :=
  match client.GetStats cachedStats with
  | .error _ => some [upMetric 0]
  | .ok stats =>
    match collectOpenMergeRequestMetrics now stats,
          collectClosedMergeRequestMetrics now stats,
          collectMergedMergeRequestMetrics now stats with
    | some openMs, some closedMs, some mergedMs =>
      some (upMetric 1 ::
        (collectProjectInfo stats ++ collectMergeReqeustInfo stats ++
         openMs ++ closedMs ++ mergedMs ++
         collectMergeRequestApprovalMetrics stats ++
         collectMergeRequestChanges stats))
    | _, _, _ => none

end collector

/-! ## Helper lemmas -/

/-- The state switch builds exactly the three state filters, in input
order. -/
lemma partitionMRs_eq_filter (mrs : List client.MergeRequestStats) :
    client.partitionMRs mrs =
      (mrs.filter (fun mr => mr.State = "opened"),
       mrs.filter (fun mr => mr.State = "merged"),
       mrs.filter (fun mr => mr.State = "closed")) := by
  induction mrs with
  | nil => rfl
  | cons head tail ih =>
    simp only [client.partitionMRs, ih, List.filter_cons]
    by_cases h1 : head.State = "opened" <;>
      by_cases h2 : head.State = "merged" <;>
        by_cases h3 : head.State = "closed" <;>
          simp_all

/-! ## Claim theorems -/

/-- Claim C6: the partition step of `getMergeRequestsDetails` places each
item with state "opened", "merged" or "closed" in exactly the group
matching its state and an item with any other state in no group; the three
groups are pairwise disjoint and their union is exactly the set of items
with one of those three states. -/
theorem claim_C6_partition (mrs : List client.MergeRequestStats)
    (mr : client.MergeRequestStats) :
    (mr ∈ (client.partitionMRs mrs).1 ↔ mr ∈ mrs ∧ mr.State = "opened") ∧
    (mr ∈ (client.partitionMRs mrs).2.1 ↔ mr ∈ mrs ∧ mr.State = "merged") ∧
    (mr ∈ (client.partitionMRs mrs).2.2 ↔ mr ∈ mrs ∧ mr.State = "closed") ∧
    ¬(mr ∈ (client.partitionMRs mrs).1 ∧ mr ∈ (client.partitionMRs mrs).2.1) ∧
    ¬(mr ∈ (client.partitionMRs mrs).1 ∧ mr ∈ (client.partitionMRs mrs).2.2) ∧
    ¬(mr ∈ (client.partitionMRs mrs).2.1 ∧ mr ∈ (client.partitionMRs mrs).2.2) := by
  have h := partitionMRs_eq_filter mrs
  have h1 : mr ∈ (client.partitionMRs mrs).1 ↔ mr ∈ mrs ∧ mr.State = "opened" := by
    simp [h, List.mem_filter]
  have h2 : mr ∈ (client.partitionMRs mrs).2.1 ↔ mr ∈ mrs ∧ mr.State = "merged" := by
    simp [h, List.mem_filter]
  have h3 : mr ∈ (client.partitionMRs mrs).2.2 ↔ mr ∈ mrs ∧ mr.State = "closed" := by
    simp [h, List.mem_filter]
  refine ⟨h1, h2, h3, ?_, ?_, ?_⟩
  · rintro ⟨a, b⟩
    have ha := (h1.mp a).2
    have hb := (h2.mp b).2
    rw [ha] at hb
    exact absurd hb (by decide)
  · rintro ⟨a, b⟩
    have ha := (h1.mp a).2
    have hb := (h3.mp b).2
    rw [ha] at hb
    exact absurd hb (by decide)
  · rintro ⟨a, b⟩
    have ha := (h2.mp a).2
    have hb := (h3.mp b).2
    rw [ha] at hb
    exact absurd hb (by decide)

/-- Witness for C6 at a concrete input: a merged item lands in the merged
group and in neither of the other two. -/
theorem claim_C6_witness :
    ({ ID := "1", InternalID := 1, State := "merged", TargetBranch := "master",
       SourceBranch := "b", ProjectID := "9", ChangeCount := "", Title := "",
       LastUpdated := none, CreatedAt := none,
       Assignees := 0 } : client.MergeRequestStats) ∈
      (client.partitionMRs
        [{ ID := "1", InternalID := 1, State := "merged", TargetBranch := "master",
           SourceBranch := "b", ProjectID := "9", ChangeCount := "", Title := "",
           LastUpdated := none, CreatedAt := none, Assignees := 0 }]).2.1 :=
  ((claim_C6_partition _ _).2.1).mpr ⟨by simp, rfl⟩

/-- Every open item's changed-files sample is in a completed open-loop
emission. -/
lemma collectOpenLoop_changed_files_mem (now : Int) :
    ∀ (l : List client.MergeRequestStats) (ms : List collector.Metric),
      collector.collectOpenLoop now l = some ms →
      ∀ mr ∈ l,
        ({ name := "gitlab_merge_request_changed_files"
           value := collector.changedFilesValue mr.ChangeCount
           labelValues := [mr.ID, mr.ProjectID] } : collector.Metric) ∈ ms := by
  intro l
  induction l with
  | nil => simp
  | cons head tail ih =>
    intro ms hms mr hmr
    simp only [collector.collectOpenLoop] at hms
    rcases hC : head.CreatedAt with - | createdAt <;> rw [hC] at hms
    · exact absurd hms (by simp)
    rcases hU : head.LastUpdated with - | lastUpdated <;> rw [hU] at hms
    · exact absurd hms (by simp)
    rcases hR : collector.collectOpenLoop now tail with - | ms' <;> rw [hR] at hms
    · exact absurd hms (by simp)
    simp only [Option.some.injEq] at hms
    subst hms
    rcases List.mem_cons.mp hmr with h | h
    · subst h
      simp
    · simp only [List.mem_cons]
      exact Or.inr (Or.inr (Or.inr (Or.inr (ih ms' hR mr h))))

/-- Every closed item's changed-files sample is in a completed closed-loop
emission. -/
lemma collectClosedLoop_changed_files_mem (now : Int) :
    ∀ (l : List client.MergeClosedStats) (ms : List collector.Metric),
      collector.collectClosedLoop now l = some ms →
      ∀ mr ∈ l,
        ({ name := "gitlab_merge_request_changed_files"
           value := collector.changedFilesValue mr.MergeRequest.ChangeCount
           labelValues := [mr.MergeRequest.ID, mr.MergeRequest.ProjectID] } :
          collector.Metric) ∈ ms := by
  intro l
  induction l with
  | nil => simp
  | cons head tail ih =>
    intro ms hms mr hmr
    simp only [collector.collectClosedLoop] at hms
    rcases hC : head.MergeRequest.CreatedAt with - | createdAt <;> rw [hC] at hms
    · exact absurd hms (by simp)
    rcases hU : head.MergeRequest.LastUpdated with - | lastUpdated <;> rw [hU] at hms
    · exact absurd hms (by simp)
    rcases hX : head.ClosedAt with - | closedAt <;> rw [hX] at hms
    · exact absurd hms (by simp)
    rcases hR : collector.collectClosedLoop now tail with - | ms' <;> rw [hR] at hms
    · exact absurd hms (by simp)
    simp only [Option.some.injEq] at hms
    subst hms
    rcases List.mem_cons.mp hmr with h | h
    · subst h
      simp
    · simp only [List.mem_cons]
      have := ih ms' hR mr h
      tauto

/-- Claim C5: the changed-file metric value emitted for a merge request is
computed from its `ChangeCount` string as exactly 1000 for the literal
"1000+", the literal numeric value for a string that parses as a number,
and 0 for any other string; and each open/closed item's changed-files
sample in a completed scrape carries exactly that value. -/
theorem claim_C5_changed_files :
    (∀ s : String,
      (s = "1000+" → collector.changedFilesValue s = 1000) ∧
      (∀ q : ℚ, goParseFloat s = some q → collector.changedFilesValue s = q) ∧
      (s ≠ "1000+" → goParseFloat s = none → collector.changedFilesValue s = 0)) ∧
    (∀ (now : Int) (stats : client.Stats) (ms : List collector.Metric),
      collector.collectOpenMergeRequestMetrics now stats = some ms →
      ∀ mr ∈ stats.MergeRequestsOpen,
        ({ name := "gitlab_merge_request_changed_files"
           value := collector.changedFilesValue mr.ChangeCount
           labelValues := [mr.ID, mr.ProjectID] } : collector.Metric) ∈ ms) ∧
    (∀ (now : Int) (stats : client.Stats) (ms : List collector.Metric),
      collector.collectClosedMergeRequestMetrics now stats = some ms →
      ∀ mr ∈ stats.MergeRequestsClosed,
        ({ name := "gitlab_merge_request_changed_files"
           value := collector.changedFilesValue mr.MergeRequest.ChangeCount
           labelValues := [mr.MergeRequest.ID, mr.MergeRequest.ProjectID] } :
          collector.Metric) ∈ ms) := by
  refine ⟨?_, ?_, ?_⟩
  · intro s
    refine ⟨?_, ?_, ?_⟩
    · intro hs
      simp [collector.changedFilesValue, hs]
    · intro q hq
      have hs : s ≠ "1000+" := by
        rintro rfl
        rw [show goParseFloat "1000+" = none from rfl] at hq
        exact absurd hq (by simp)
      simp [collector.changedFilesValue, hs, hq]
    · intro hs hq
      simp [collector.changedFilesValue, hs, hq]
  · intro now stats ms hms
    exact collectOpenLoop_changed_files_mem now _ ms hms
  · intro now stats ms hms
    exact collectClosedLoop_changed_files_mem now _ ms hms

/-- Witness for C5 at concrete inputs: the overflow token, a numeric
string, and a garbage string, plus one completed open-loop scrape. -/
theorem claim_C5_witness :
    collector.changedFilesValue "1000+" = 1000 ∧
    collector.changedFilesValue "12" = 12 ∧
    collector.changedFilesValue "oops" = 0 := by
  have h := claim_C5_changed_files.1
  refine ⟨(h "1000+").1 rfl, (h "12").2.1 12 ?_, (h "oops").2.2 (by decide) ?_⟩
  · show goParseFloat "12" = some 12
    have : goParseFloat "12" = some ((1 : ℚ) * ((12 : ℚ) + (0 : ℚ) / (10 : ℚ) ^ (0 : Nat))) := rfl
    rw [this]
    norm_num
  · rfl

/-- Behaviour of the projects paging loop over a run of non-empty pages:
starting at page `s` with accumulator `acc`, if pages `s, s+1, ...` hold
the entries of `L` (all non-empty) and the loop has fuel to spare, the
loop returns `acc` extended with the concatenation of `L` when the next
page is empty, and propagates the error when the next page's fetch
fails. -/
lemma getProjectsLoop_spec (api : GitlabAPI) :
    ∀ (L : List (List GoProject)) (s fuel : Nat) (acc : List GoProject),
      (∀ i (h : i < L.length), api.listProjects (s + i) 100 = .ok (L.get ⟨i, h⟩)) →
      (∀ p ∈ L, p ≠ []) →
      L.length < fuel →
      ((api.listProjects (s + L.length) 100 = .ok [] →
          client.getProjectsLoop api fuel s acc = some (.ok (acc ++ L.flatten))) ∧
       (∀ e, api.listProjects (s + L.length) 100 = .error e →
          client.getProjectsLoop api fuel s acc = some (.error e))) := by
  intro L
  induction L with
  | nil =>
    intro s fuel acc _ _ hfuel
    obtain ⟨f, rfl⟩ : ∃ f, fuel = f + 1 := ⟨fuel - 1, by omega⟩
    constructor
    · intro hstop
      simp only [List.length_nil, Nat.add_zero] at hstop
      simp [client.getProjectsLoop, hstop]
    · intro e hstop
      simp only [List.length_nil, Nat.add_zero] at hstop
      simp [client.getProjectsLoop, hstop]
  | cons p L ih =>
    intro s fuel acc hpages hne hfuel
    obtain ⟨f, rfl⟩ : ∃ f, fuel = f + 1 := ⟨fuel - 1, by omega⟩
    have hp : api.listProjects s 100 = .ok p := by
      have := hpages 0 (by simp)
      simpa using this
    have hpne : p ≠ [] := hne p (by simp)
    have hstep :
        client.getProjectsLoop api (f + 1) s acc =
          client.getProjectsLoop api f (s + 1) (acc ++ p) := by
      simp only [client.getProjectsLoop, hp]
      rw [if_neg (by simpa [List.length_eq_zero] using hpne)]
    have ihs := ih (s + 1) f (acc ++ p)
      (fun i h => by
        have := hpages (i + 1) (by simpa using Nat.succ_lt_succ h)
        simpa [Nat.add_assoc, Nat.add_comm 1 i] using this)
      (fun q hq => hne q (by simp [hq]))
      (by simpa using Nat.lt_of_succ_lt_succ (by simpa using hfuel))
    have hlen : s + 1 + L.length = s + (p :: L).length := by
      simp [List.length_cons]
      omega
    constructor
    · intro hstop
      rw [hstep]
      rw [hlen] at ihs
      rw [ihs.1 hstop]
      simp [List.flatten]
    · intro e hstop
      rw [hstep]
      rw [hlen] at ihs
      exact ihs.2 e hstop

/-- Claim C9: `getProjects` requests pages of 100 items starting at page 1,
accumulates until the first page that returns zero items, and returns the
concatenation of all pages in order (mapped to `ProjectStats`); if any
page's fetch fails, it returns that error and no accumulation. -/
theorem claim_C9_get_projects_paging (api : GitlabAPI)
    (L : List (List GoProject)) (fuel : Nat)
    (hpages : ∀ i (h : i < L.length), api.listProjects (1 + i) 100 = .ok (L.get ⟨i, h⟩))
    (hne : ∀ p ∈ L, p ≠ [])
    (hfuel : L.length < fuel) :
    (api.listProjects (1 + L.length) 100 = .ok [] →
       client.getProjects api fuel = some (.ok (L.flatten.map fun project =>
         { ID := toString project.ID
           PathWithNamespace := project.PathWithNamespace }))) ∧
    (∀ e, api.listProjects (1 + L.length) 100 = .error e →
       client.getProjects api fuel = some (.error e)) := by
  have h := getProjectsLoop_spec api L 1 fuel [] hpages hne hfuel
  constructor
  · intro hstop
    rw [client.getProjects, h.1 hstop]
    simp
  · intro e hstop
    rw [client.getProjects, h.2 e hstop]

/-- Case analysis of one `getData` run: either every step succeeded, the
final assignment ran, and the resulting cache is the assembled snapshot;
or the run did not reach the assignment and the cache is untouched. -/
lemma getData_spec (api : GitlabAPI) (fuel : Nat) (cached : client.Stats) :
    (∃ s, (client.getData api fuel cached).1 = .ok s ∧
       (client.getData api fuel cached).2 = s ∧
       api.newClient = .ok () ∧
       ∃ projects mrs mrOpen mrMerged mrClosed approvals changes,
         client.getProjects api fuel = some (.ok projects) ∧
         client.getMergeRequest api fuel = some (.ok mrs) ∧
         client.getMergeRequestsDetails api mrs = .ok mrOpen mrMerged mrClosed ∧
         client.getApprovals api mrOpen = .ok approvals ∧
         client.getChanges api mrOpen = .ok changes ∧
         s = { Projects := projects, MergeRequests := mrs
               MergeRequestsOpen := mrOpen, MergeRequestsClosed := mrClosed
               MergeRequestsMerged := mrMerged, Approvals := approvals
               Changes := changes }) ∨
    ((client.getData api fuel cached).2 = cached ∧
       ∀ s, (client.getData api fuel cached).1 ≠ .ok s) := by
  rcases hc : api.newClient with e | u
  · right
    simp [client.getData, hc]
  rcases hp : client.getProjects api fuel with - | rp
  · right
    simp [client.getData, hc, hp]
  rcases rp with e | projects
  · right
    simp [client.getData, hc, hp]
  rcases hm : client.getMergeRequest api fuel with - | rm
  · right
    simp [client.getData, hc, hp, hm]
  rcases rm with e | mrs
  · right
    simp [client.getData, hc, hp, hm]
  rcases hd : client.getMergeRequestsDetails api mrs with - | - | ⟨mrOpen, mrMerged, mrClosed⟩
  · right
    simp [client.getData, hc, hp, hm, hd]
  · right
    simp [client.getData, hc, hp, hm, hd]
  rcases ha : client.getApprovals api mrOpen with e | approvals
  · right
    simp [client.getData, hc, hp, hm, hd, ha]
  rcases hg : client.getChanges api mrOpen with e | changes
  · right
    simp [client.getData, hc, hp, hm, hd, ha, hg]
  left
  refine ⟨{ Projects := projects, MergeRequests := mrs, MergeRequestsOpen := mrOpen,
            MergeRequestsClosed := mrClosed, MergeRequestsMerged := mrMerged,
            Approvals := approvals, Changes := changes }, ?_, ?_, rfl, projects, mrs,
    mrOpen, mrMerged, mrClosed, approvals, changes, rfl, rfl, hd, ha, hg, rfl⟩
  · simp [client.getData, hc, hp, hm, hd, ha, hg]
  · simp [client.getData, hc, hp, hm, hd, ha, hg]

/-- Claim C1: a run of `getData` that fails at any step (or hangs in the
enrichment join, or crashes in an enrichment goroutine) leaves the
process-wide `CachedStats` exactly as it was; only a run in which every
step succeeds replaces it, and it replaces it with the single assignment
of the fully assembled `Stats` value built from those steps' results. -/
theorem claim_C1_failed_cycle_preserves_cache (api : GitlabAPI) (fuel : Nat)
    (cached : client.Stats) :
    (∀ e, (client.getData api fuel cached).1 = .fail e →
       (client.getData api fuel cached).2 = cached) ∧
    ((client.getData api fuel cached).1 = .hang →
       (client.getData api fuel cached).2 = cached) ∧
    ((client.getData api fuel cached).1 = .crash →
       (client.getData api fuel cached).2 = cached) ∧
    (∀ s, (client.getData api fuel cached).1 = .ok s →
       (client.getData api fuel cached).2 = s ∧
       api.newClient = .ok () ∧
       ∃ projects mrs mrOpen mrMerged mrClosed approvals changes,
         client.getProjects api fuel = some (.ok projects) ∧
         client.getMergeRequest api fuel = some (.ok mrs) ∧
         client.getMergeRequestsDetails api mrs = .ok mrOpen mrMerged mrClosed ∧
         client.getApprovals api mrOpen = .ok approvals ∧
         client.getChanges api mrOpen = .ok changes ∧
         s = { Projects := projects, MergeRequests := mrs
               MergeRequestsOpen := mrOpen, MergeRequestsClosed := mrClosed
               MergeRequestsMerged := mrMerged, Approvals := approvals
               Changes := changes }) := by
  rcases getData_spec api fuel cached with
    ⟨s, hok, hsnd, hnc, w⟩ | ⟨hsnd, hne⟩
  · refine ⟨?_, ?_, ?_, ?_⟩
    · intro e he
      rw [hok] at he
      exact absurd he (by simp)
    · intro he
      rw [hok] at he
      exact absurd he (by simp)
    · intro he
      rw [hok] at he
      exact absurd he (by simp)
    · intro s' hs'
      rw [hok] at hs'
      obtain rfl : s = s' := by simpa using hs'
      exact ⟨hsnd, hnc, w⟩
  · exact ⟨fun _ _ => hsnd, fun _ => hsnd, fun _ => hsnd,
      fun s hs => absurd hs (hne s)⟩

/-- A concrete API oracle on which every call succeeds and every listing is
empty. -/
def apiAllEmpty : GitlabAPI :=
  { newClient := .ok ()
    listProjects := fun _ _ => .ok []
    listMergeRequests := fun _ _ => .ok []
    getMergeRequest := fun _ _ => .error "unreached"
    getApprovalConfiguration := fun _ _ => .error "unreached"
    compare := fun _ _ _ => .error "unreached" }

/-- Witness for C1: on a concrete all-empty oracle every step succeeds and
the run replaces the cache with the assembled (empty) snapshot. -/
theorem claim_C1_witness :
    (client.getData apiAllEmpty 1 client.initialCachedStats).1 =
      client.RunOutcome.ok client.initialCachedStats ∧
    (client.getData apiAllEmpty 1 client.initialCachedStats).2 =
      client.initialCachedStats :=
  ⟨by with_unfolding_all rfl,
   ((claim_C1_failed_cycle_preserves_cache apiAllEmpty 1
       client.initialCachedStats).2.2.2 client.initialCachedStats
     (by with_unfolding_all rfl)).1⟩

/-- A completed approvals pass records exactly the (ID, ProjectID) pairs of
its input list, in order. -/
lemma getApprovals_ids (api : GitlabAPI) :
    ∀ (l : List client.MergeRequestStats) (res : List client.ApprovalStats),
      client.getApprovals api l = .ok res →
      res.map (fun a => (a.ID, a.ProjectID)) = l.map (fun mr => (mr.ID, mr.ProjectID)) := by
  intro l
  induction l with
  | nil =>
    intro res h
    simp only [client.getApprovals] at h
    injection h with h
    subst h
    rfl
  | cons head tail ih =>
    intro res h
    simp only [client.getApprovals] at h
    rcases hA : api.getApprovalConfiguration head.ProjectID head.InternalID with e | appr <;>
      rw [hA] at h
    · exact absurd h (by simp)
    rcases hR : client.getApprovals api tail with e | rs <;> rw [hR] at h
    · exact absurd h (by simp)
    injection h with h
    subst h
    simp [ih rs hR]

/-- A completed changes pass records exactly the (ID, ProjectID) pairs of
its input list, in order. -/
lemma getChanges_ids (api : GitlabAPI) :
    ∀ (l : List client.MergeRequestStats) (res : List client.ChangeStats),
      client.getChanges api l = .ok res →
      res.map (fun ch => (ch.ID, ch.ProjectID)) = l.map (fun mr => (mr.ID, mr.ProjectID)) := by
  intro l
  induction l with
  | nil =>
    intro res h
    simp only [client.getChanges] at h
    injection h with h
    subst h
    rfl
  | cons head tail ih =>
    intro res h
    simp only [client.getChanges] at h
    rcases hA : api.compare head.ProjectID "master" head.SourceBranch with e | cmp <;>
      rw [hA] at h
    · exact absurd h (by simp)
    rcases hR : client.getChanges api tail with e | rs <;> rw [hR] at h
    · exact absurd h (by simp)
    injection h with h
    subst h
    simp [ih rs hR]

/-- A completed open-enrichment task yields one record per input item. -/
lemma getOpenMergeRequests_length (api : GitlabAPI) :
    ∀ (l : List client.MergeRequestStats) (res : List client.MergeRequestStats),
      client.getOpenMergeRequests api l = .ok res → res.length = l.length := by
  intro l
  induction l with
  | nil =>
    intro res h
    simp only [client.getOpenMergeRequests] at h
    injection h with h
    subst h
    rfl
  | cons head tail ih =>
    intro res h
    simp only [client.getOpenMergeRequests] at h
    rcases hA : api.getMergeRequest head.ProjectID head.InternalID with e | d <;> rw [hA] at h
    · exact absurd h (by simp)
    rcases hR : client.getOpenMergeRequests api tail with - | e | rs <;> rw [hR] at h
    · exact absurd h (by simp)
    · exact absurd h (by simp)
    injection h with h
    subst h
    simp [ih rs hR]

/-- A successful details join returns exactly the three task results; in
particular the open result comes from the open task run on the opened
partition. -/
lemma getMergeRequestsDetails_ok (api : GitlabAPI) (mrs : List client.MergeRequestStats)
    (mrOpen : List client.MergeRequestStats) (mrMerged : List client.MergeMergedStats)
    (mrClosed : List client.MergeClosedStats)
    (h : client.getMergeRequestsDetails api mrs = .ok mrOpen mrMerged mrClosed) :
    client.getOpenMergeRequests api (client.partitionMRs mrs).1 = .ok mrOpen ∧
    client.getMergedMergeRequests api (client.partitionMRs mrs).2.1 = .ok mrMerged ∧
    client.getClosedMergeRequests api (client.partitionMRs mrs).2.2 = .ok mrClosed := by
  simp only [client.getMergeRequestsDetails] at h
  rcases hO : client.getOpenMergeRequests api (client.partitionMRs mrs).1 with - | e | o <;>
    rw [hO] at h
  · exact absurd h (by rcases client.getMergedMergeRequests api (client.partitionMRs mrs).2.1 <;>
      rcases client.getClosedMergeRequests api (client.partitionMRs mrs).2.2 <;>
        simp [client.taskPanicked])
  · exact absurd h (by rcases client.getMergedMergeRequests api (client.partitionMRs mrs).2.1 <;>
      rcases client.getClosedMergeRequests api (client.partitionMRs mrs).2.2 <;>
        simp [client.taskPanicked])
  rcases hM : client.getMergedMergeRequests api (client.partitionMRs mrs).2.1 with - | e | m <;>
    rw [hM] at h
  · exact absurd h (by rcases client.getClosedMergeRequests api (client.partitionMRs mrs).2.2 <;>
      simp [client.taskPanicked])
  · exact absurd h (by rcases client.getClosedMergeRequests api (client.partitionMRs mrs).2.2 <;>
      simp [client.taskPanicked])
  rcases hC : client.getClosedMergeRequests api (client.partitionMRs mrs).2.2 with - | e | c <;>
    rw [hC] at h
  · exact absurd h (by simp [client.taskPanicked])
  · exact absurd h (by simp [client.taskPanicked])
  obtain ⟨rfl, rfl, rfl⟩ : o = mrOpen ∧ m = mrMerged ∧ c = mrClosed := by
    simpa using h
  exact ⟨rfl, rfl, rfl⟩

/-- Claim C8: in every successful fetch cycle, approvals and branch-diff
change records are produced exactly for the members of the opened
partition — one approval record and one change record per opened merge
request, pairwise identified with the enriched open items, and none for
merged or closed merge requests. -/
theorem claim_C8_approvals_changes_open_only (api : GitlabAPI) (fuel : Nat)
    (cached s : client.Stats)
    (h : (client.getData api fuel cached).1 = client.RunOutcome.ok s) :
    s.Approvals.map (fun a => (a.ID, a.ProjectID)) =
      s.MergeRequestsOpen.map (fun mr => (mr.ID, mr.ProjectID)) ∧
    s.Changes.map (fun ch => (ch.ID, ch.ProjectID)) =
      s.MergeRequestsOpen.map (fun mr => (mr.ID, mr.ProjectID)) ∧
    s.MergeRequestsOpen.length = (client.partitionMRs s.MergeRequests).1.length := by
  rcases getData_spec api fuel cached with
    ⟨s', hok, -, -, projects, mrs, mrOpen, mrMerged, mrClosed, approvals, changes,
      -, -, hd, ha, hg, rfl⟩ | ⟨-, hne⟩
  · rw [hok] at h
    obtain rfl : _ = s := by simpa using h
    refine ⟨getApprovals_ids api mrOpen approvals ha,
      getChanges_ids api mrOpen changes hg, ?_⟩
    exact getOpenMergeRequests_length api _ mrOpen (getMergeRequestsDetails_ok api mrs
      mrOpen mrMerged mrClosed hd).1
  · exact absurd h (hne s)

/-- A concrete oracle for one opened merge request whose every fetch
succeeds. -/
def apiOneOpened : GitlabAPI :=
  { newClient := .ok ()
    listProjects := fun _ _ => .ok []
    listMergeRequests := fun page _ =>
      if page = 1 then
        .ok [{ ID := 10, IID := 2, ProjectID := 5, State := "opened",
               TargetBranch := "master", SourceBranch := "feat", Title := "t" }]
      else .ok []
    getMergeRequest := fun _ _ =>
      .ok { ID := 10, IID := 2, ProjectID := 5
            CreatedAt := some ⟨1500000000000000000⟩
            UpdatedAt := some ⟨1500000100000000000⟩
            MergedAt := none, ClosedAt := none, ChangesCount := "3"
            AssigneesLen := 1, MergeError := "", SourceBranch := "feat" }
    getApprovalConfiguration := fun _ _ => .ok { ApprovalsLeft := 2 }
    compare := fun _ _ _ => .ok { Diffs := [{ Diff := "x\n+a\n-b" }] } }

/-- Witness for C8: on the one-opened-MR oracle the successful cycle
produces exactly one approval record and one change record, both
identified with the single open item. -/
theorem claim_C8_witness :
    (client.getData apiOneOpened 2 client.initialCachedStats).1 =
      client.RunOutcome.ok
        (client.getData apiOneOpened 2 client.initialCachedStats).2 ∧
    ((client.getData apiOneOpened 2 client.initialCachedStats).2.Approvals.map
        (fun a => (a.ID, a.ProjectID)) =
      (client.getData apiOneOpened 2 client.initialCachedStats).2.MergeRequestsOpen.map
        (fun mr => (mr.ID, mr.ProjectID)) ∧
     (client.getData apiOneOpened 2 client.initialCachedStats).2.Changes.map
        (fun ch => (ch.ID, ch.ProjectID)) =
      (client.getData apiOneOpened 2 client.initialCachedStats).2.MergeRequestsOpen.map
        (fun mr => (mr.ID, mr.ProjectID)) ∧
     (client.getData apiOneOpened 2 client.initialCachedStats).2.MergeRequestsOpen.length =
      (client.partitionMRs
        (client.getData apiOneOpened 2 client.initialCachedStats).2.MergeRequests).1.length) :=
  ⟨by with_unfolding_all rfl,
   claim_C8_approvals_changes_open_only apiOneOpened 2 client.initialCachedStats
     (client.getData apiOneOpened 2 client.initialCachedStats).2
     (by with_unfolding_all rfl)⟩

/-- Claim C2 (refuting theorem): in this variant `GetStats` always returns
the cached snapshot with a nil error, so `Collect` reports `up = 1` even
for a scrape taken while `CachedStats` still holds the initial empty
snapshot — before any fetch cycle has succeeded — where the claim (and the
spec) require `up = 0`. -/
theorem claim_C2_up_one_before_first_cycle :
    collector.Collect 0 client.initialCachedStats =
      some [collector.upMetric 1] := by
  with_unfolding_all rfl

/-- A concrete oracle whose merge-request detail fetch fails. -/
def apiDetailFails : GitlabAPI :=
  { newClient := .ok ()
    listProjects := fun _ _ => .ok []
    listMergeRequests := fun _ _ => .ok []
    getMergeRequest := fun _ _ => .error "boom"
    getApprovalConfiguration := fun _ _ => .ok { ApprovalsLeft := 0 }
    compare := fun _ _ _ => .ok { Diffs := [] } }

/-- A concrete opened merge request fed to the enrichment step. -/
def mrOpenedIn : client.MergeRequestStats :=
  { ID := "10", InternalID := 2, State := "opened", TargetBranch := "master",
    SourceBranch := "feat", ProjectID := "5", ChangeCount := "", Title := "t",
    LastUpdated := none, CreatedAt := none, Assignees := 0 }

/-- Claim C3 (refuting theorem): when a per-item detail fetch fails, the
failing task takes the `errCh <- err; return nil` path and never reaches
its `wg.Done()`, so the `wg.Wait()` join of `getMergeRequestsDetails`
blocks forever — the orchestrator deadlocks instead of returning the first
error with nil collections. -/
theorem claim_C3_failed_task_deadlocks :
    client.getOpenMergeRequests apiDetailFails [mrOpenedIn] =
      client.TaskOutcome.fail "boom" ∧
    client.getMergeRequestsDetails apiDetailFails [mrOpenedIn] =
      client.DetailsOutcome.deadlock := by
  constructor
  · with_unfolding_all rfl
  · with_unfolding_all rfl

/-- A concrete oracle whose detail payload reports a merged item with no
merge error but a missing (nil) merged-at timestamp. -/
def apiNilMergedAt : GitlabAPI :=
  { newClient := .ok ()
    listProjects := fun _ _ => .ok []
    listMergeRequests := fun _ _ => .ok []
    getMergeRequest := fun _ _ =>
      .ok { ID := 10, IID := 2, ProjectID := 5
            CreatedAt := some ⟨1500000000000000000⟩
            UpdatedAt := some ⟨1500000100000000000⟩
            MergedAt := none, ClosedAt := none, ChangesCount := "3"
            AssigneesLen := 1, MergeError := "", SourceBranch := "feat" }
    getApprovalConfiguration := fun _ _ => .ok { ApprovalsLeft := 0 }
    compare := fun _ _ _ => .ok { Diffs := [] } }

/-- A concrete merged merge request fed to the enrichment step. -/
def mrMergedIn : client.MergeRequestStats :=
  { ID := "10", InternalID := 2, State := "merged", TargetBranch := "master",
    SourceBranch := "feat", ProjectID := "5", ChangeCount := "", Title := "t",
    LastUpdated := none, CreatedAt := none, Assignees := 0 }

/-- Claim C7 (refuting theorem): in the latest variant the merged-task body
evaluates `result.MergedAt.Sub(*result.CreatedAt)` with no nil check, so a
detail payload with no merge error but a nil merged-at timestamp makes the
goroutine panic and the process crash, instead of substituting the
zero-value timestamp and completing normally. -/
theorem claim_C7_nil_merged_at_panics :
    client.getMergedMergeRequests apiNilMergedAt [mrMergedIn] =
      client.TaskOutcome.panic ∧
    client.getMergeRequestsDetails apiNilMergedAt [mrMergedIn] =
      client.DetailsOutcome.crash := by
  constructor
  · with_unfolding_all rfl
  · with_unfolding_all rfl

/-- Every record of a completed merged-enrichment task carries its outcome
and creation timestamps and the duration computed from them by the
saturating subtraction / string round-trip pipeline. -/
lemma getMergedMergeRequests_shape (api : GitlabAPI) :
    ∀ (l : List client.MergeRequestStats) (res : List client.MergeMergedStats),
      client.getMergedMergeRequests api l = .ok res →
      ∀ r ∈ res, ∃ mergedAt createdAt : GoTime,
        r.MergedAt = some mergedAt ∧
        r.MergeRequest.CreatedAt = some createdAt ∧
        r.Duration = durationSecondsQ (parseRoundTripNs (goTimeSubNs mergedAt createdAt)) := by
  intro l
  induction l with
  | nil =>
    intro res h
    simp only [client.getMergedMergeRequests] at h
    injection h with h
    subst h
    simp
  | cons head tail ih =>
    intro res h
    simp only [client.getMergedMergeRequests] at h
    rcases hA : api.getMergeRequest head.ProjectID head.InternalID with e | d <;> rw [hA] at h
    · exact absurd h (by simp)
    simp only at h
    by_cases hME : d.MergeError = ""
    · rw [if_pos hME] at h
      rcases hMA : d.MergedAt with - | mergedAt <;> rw [hMA] at h
      · rcases d.CreatedAt with - | createdAt <;> exact absurd h (by simp)
      rcases hCA : d.CreatedAt with - | createdAt <;> rw [hCA] at h
      · exact absurd h (by simp)
      rcases hR : client.getMergedMergeRequests api tail with - | e | rs <;> rw [hR] at h
      · exact absurd h (by simp)
      · exact absurd h (by simp)
      injection h with h
      subst h
      intro r hr
      rcases List.mem_cons.mp hr with rfl | hr
      · exact ⟨mergedAt, createdAt, rfl, by simp [hCA], rfl⟩
      · exact ih rs hR r hr
    · rw [if_neg hME] at h
      exact ih res h

/-- Every record of a completed closed-enrichment task carries its outcome
and creation timestamps and the duration computed from them. -/
lemma getClosedMergeRequests_shape (api : GitlabAPI) :
    ∀ (l : List client.MergeRequestStats) (res : List client.MergeClosedStats),
      client.getClosedMergeRequests api l = .ok res →
      ∀ r ∈ res, ∃ closedAt createdAt : GoTime,
        r.ClosedAt = some closedAt ∧
        r.MergeRequest.CreatedAt = some createdAt ∧
        r.Duration = durationSecondsQ (parseRoundTripNs (goTimeSubNs closedAt createdAt)) := by
  intro l
  induction l with
  | nil =>
    intro res h
    simp only [client.getClosedMergeRequests] at h
    injection h with h
    subst h
    simp
  | cons head tail ih =>
    intro res h
    simp only [client.getClosedMergeRequests] at h
    rcases hA : api.getMergeRequest head.ProjectID head.InternalID with e | d <;> rw [hA] at h
    · exact absurd h (by simp)
    simp only at h
    by_cases hME : d.MergeError = ""
    · rw [if_pos hME] at h
      rcases hMA : d.ClosedAt with - | closedAt <;> rw [hMA] at h
      · rcases d.CreatedAt with - | createdAt <;> exact absurd h (by simp)
      rcases hCA : d.CreatedAt with - | createdAt <;> rw [hCA] at h
      · exact absurd h (by simp)
      rcases hR : client.getClosedMergeRequests api tail with - | e | rs <;> rw [hR] at h
      · exact absurd h (by simp)
      · exact absurd h (by simp)
      injection h with h
      subst h
      intro r hr
      rcases List.mem_cons.mp hr with rfl | hr
      · exact ⟨closedAt, createdAt, rfl, by simp [hCA], rfl⟩
      · exact ih rs hR r hr
    · rw [if_neg hME] at h
      exact ih res h

/-- When the timestamp difference stays inside the int64 duration range
(and above the non-reparseable minimum), the duration pipeline is exact
division by 1e9. -/
lemma durationQ_inRange (t u : GoTime)
    (h1 : minInt64 < t.ns - u.ns) (h2 : t.ns - u.ns ≤ maxInt64) :
    durationSecondsQ (parseRoundTripNs (goTimeSubNs t u)) =
      ((t.ns - u.ns : Int) : ℚ) / 1000000000 := by
  have hs : goTimeSubNs t u = t.ns - u.ns := by
    simp only [goTimeSubNs, satInt64, minInt64, maxInt64] at *
    omega
  have hne : t.ns - u.ns ≠ minInt64 := by
    simp only [minInt64] at *
    omega
  rw [hs, parseRoundTripNs, if_neg hne, durationSecondsQ]

/-- When the outcome timestamp is the Go zero-value time and the creation
timestamp is at or after the Unix epoch, the saturated difference is the
minimum duration, the string round-trip fails, and the recorded duration
is 0. -/
lemma durationQ_zeroTime (t u : GoTime)
    (hz : t.ns = zeroTimeNs) (hu : 0 ≤ u.ns) :
    durationSecondsQ (parseRoundTripNs (goTimeSubNs t u)) = 0 := by
  have hs : goTimeSubNs t u = minInt64 := by
    simp only [goTimeSubNs, satInt64, minInt64, maxInt64, zeroTimeNs] at *
    omega
  rw [hs, parseRoundTripNs, if_pos rfl, durationSecondsQ]
  norm_num

/-- Claim C4: for every merged or closed merge request included in a
snapshot, the recorded `Duration` equals its outcome timestamp (mergedAt
or closedAt) minus its creation timestamp in seconds whenever that
difference is representable; and when the outcome timestamp is the
zero-value timestamp (with a post-epoch creation time) the `Duration` is 0
rather than an error. -/
theorem claim_C4_duration :
    (∀ (api : GitlabAPI) (l : List client.MergeRequestStats)
       (res : List client.MergeMergedStats),
      client.getMergedMergeRequests api l = .ok res →
      ∀ r ∈ res, ∃ mergedAt createdAt : GoTime,
        r.MergedAt = some mergedAt ∧
        r.MergeRequest.CreatedAt = some createdAt ∧
        (minInt64 < mergedAt.ns - createdAt.ns →
          mergedAt.ns - createdAt.ns ≤ maxInt64 →
          r.Duration = ((mergedAt.ns - createdAt.ns : Int) : ℚ) / 1000000000) ∧
        (mergedAt.ns = zeroTimeNs → 0 ≤ createdAt.ns → r.Duration = 0)) ∧
    (∀ (api : GitlabAPI) (l : List client.MergeRequestStats)
       (res : List client.MergeClosedStats),
      client.getClosedMergeRequests api l = .ok res →
      ∀ r ∈ res, ∃ closedAt createdAt : GoTime,
        r.ClosedAt = some closedAt ∧
        r.MergeRequest.CreatedAt = some createdAt ∧
        (minInt64 < closedAt.ns - createdAt.ns →
          closedAt.ns - createdAt.ns ≤ maxInt64 →
          r.Duration = ((closedAt.ns - createdAt.ns : Int) : ℚ) / 1000000000) ∧
        (closedAt.ns = zeroTimeNs → 0 ≤ createdAt.ns → r.Duration = 0)) := by
  constructor
  · intro api l res h r hr
    obtain ⟨mergedAt, createdAt, hm, hc, hdur⟩ :=
      getMergedMergeRequests_shape api l res h r hr
    exact ⟨mergedAt, createdAt, hm, hc,
      fun h1 h2 => by rw [hdur]; exact durationQ_inRange mergedAt createdAt h1 h2,
      fun hz hu => by rw [hdur]; exact durationQ_zeroTime mergedAt createdAt hz hu⟩
  · intro api l res h r hr
    obtain ⟨closedAt, createdAt, hm, hc, hdur⟩ :=
      getClosedMergeRequests_shape api l res h r hr
    exact ⟨closedAt, createdAt, hm, hc,
      fun h1 h2 => by rw [hdur]; exact durationQ_inRange closedAt createdAt h1 h2,
      fun hz hu => by rw [hdur]; exact durationQ_zeroTime closedAt createdAt hz hu⟩

/-- A concrete oracle whose detail payload is a cleanly merged item:
merged 1.5 seconds after creation. -/
def apiMergedOk : GitlabAPI :=
  { newClient := .ok ()
    listProjects := fun _ _ => .ok []
    listMergeRequests := fun _ _ => .ok []
    getMergeRequest := fun _ _ =>
      .ok { ID := 10, IID := 2, ProjectID := 5
            CreatedAt := some ⟨500000000⟩
            UpdatedAt := some ⟨1500000100000000000⟩
            MergedAt := some ⟨2000000000⟩, ClosedAt := none, ChangesCount := "3"
            AssigneesLen := 1, MergeError := "", SourceBranch := "feat" }
    getApprovalConfiguration := fun _ _ => .ok { ApprovalsLeft := 0 }
    compare := fun _ _ _ => .ok { Diffs := [] } }

/-- The merged record the enrichment step builds on `apiMergedOk`. -/
def mergedEntryW : client.MergeMergedStats :=
  { MergedAt := some ⟨2000000000⟩
    Duration := 3 / 2
    MergeRequest :=
      { ProjectID := "5", ID := "10", CreatedAt := some ⟨500000000⟩
        LastUpdated := some ⟨1500000100000000000⟩, ChangeCount := "3"
        Assignees := 1, SourceBranch := "feat"
        InternalID := 0, State := "", TargetBranch := "", Title := "" } }

/-- Witness for C4 at a concrete input: the merged task on `apiMergedOk`
records a duration of 1.5 seconds, and the claim's conclusion holds of
that record. -/
theorem claim_C4_witness :
    client.getMergedMergeRequests apiMergedOk [mrMergedIn] = .ok [mergedEntryW] ∧
    (∃ mergedAt createdAt : GoTime,
      mergedEntryW.MergedAt = some mergedAt ∧
      mergedEntryW.MergeRequest.CreatedAt = some createdAt ∧
      (minInt64 < mergedAt.ns - createdAt.ns →
        mergedAt.ns - createdAt.ns ≤ maxInt64 →
        mergedEntryW.Duration = ((mergedAt.ns - createdAt.ns : Int) : ℚ) / 1000000000) ∧
      (mergedAt.ns = zeroTimeNs → 0 ≤ createdAt.ns → mergedEntryW.Duration = 0)) := by
  have h : client.getMergedMergeRequests apiMergedOk [mrMergedIn] = .ok [mergedEntryW] := by
    have h1 : client.getMergedMergeRequests apiMergedOk [mrMergedIn] =
        .ok [{ mergedEntryW with
                 Duration := durationSecondsQ (parseRoundTripNs (goTimeSubNs
                   ⟨2000000000⟩ ⟨500000000⟩)) }] := by
      with_unfolding_all rfl
    rw [h1, durationQ_inRange ⟨2000000000⟩ ⟨500000000⟩ (by decide) (by decide)]
    norm_num [mergedEntryW]
  exact ⟨h, claim_C4_duration.1 apiMergedOk [mrMergedIn] [mergedEntryW] h
    mergedEntryW (by simp)⟩

/-- The open-loop emission completes exactly when every open item carries
both timestamp pointers. -/
lemma collectOpenLoop_isSome (now : Int) :
    ∀ l : List client.MergeRequestStats,
      (collector.collectOpenLoop now l).isSome ↔
        ∀ mr ∈ l, mr.CreatedAt.isSome ∧ mr.LastUpdated.isSome := by
  intro l
  induction l with
  | nil => simp [collector.collectOpenLoop]
  | cons head tail ih =>
    have hstep : (collector.collectOpenLoop now (head :: tail)).isSome ↔
        (head.CreatedAt.isSome ∧ head.LastUpdated.isSome) ∧
          (collector.collectOpenLoop now tail).isSome := by
      simp only [collector.collectOpenLoop]
      rcases head.CreatedAt with - | c <;> rcases head.LastUpdated with - | u <;>
        rcases collector.collectOpenLoop now tail with - | ms <;> simp
    rw [hstep, ih, List.forall_mem_cons]

/-- The closed-loop emission completes exactly when every closed item
carries all three timestamp pointers. -/
lemma collectClosedLoop_isSome (now : Int) :
    ∀ l : List client.MergeClosedStats,
      (collector.collectClosedLoop now l).isSome ↔
        ∀ mr ∈ l, mr.MergeRequest.CreatedAt.isSome ∧
          mr.MergeRequest.LastUpdated.isSome ∧ mr.ClosedAt.isSome := by
  intro l
  induction l with
  | nil => simp [collector.collectClosedLoop]
  | cons head tail ih =>
    have hstep : (collector.collectClosedLoop now (head :: tail)).isSome ↔
        (head.MergeRequest.CreatedAt.isSome ∧ head.MergeRequest.LastUpdated.isSome ∧
          head.ClosedAt.isSome) ∧
          (collector.collectClosedLoop now tail).isSome := by
      simp only [collector.collectClosedLoop]
      rcases head.MergeRequest.CreatedAt with - | c <;>
        rcases head.MergeRequest.LastUpdated with - | u <;>
          rcases head.ClosedAt with - | x <;>
            rcases collector.collectClosedLoop now tail with - | ms <;> simp
    rw [hstep, ih, List.forall_mem_cons]

/-- The merged-loop emission completes exactly when every merged item
carries all three timestamp pointers. -/
lemma collectMergedLoop_isSome (now : Int) :
    ∀ l : List client.MergeMergedStats,
      (collector.collectMergedLoop now l).isSome ↔
        ∀ mr ∈ l, mr.MergeRequest.CreatedAt.isSome ∧
          mr.MergeRequest.LastUpdated.isSome ∧ mr.MergedAt.isSome := by
  intro l
  induction l with
  | nil => simp [collector.collectMergedLoop]
  | cons head tail ih =>
    have hstep : (collector.collectMergedLoop now (head :: tail)).isSome ↔
        (head.MergeRequest.CreatedAt.isSome ∧ head.MergeRequest.LastUpdated.isSome ∧
          head.MergedAt.isSome) ∧
          (collector.collectMergedLoop now tail).isSome := by
      simp only [collector.collectMergedLoop]
      rcases head.MergeRequest.CreatedAt with - | c <;>
        rcases head.MergeRequest.LastUpdated with - | u <;>
          rcases head.MergedAt with - | x <;>
            rcases collector.collectMergedLoop now tail with - | ms <;> simp
    rw [hstep, ih, List.forall_mem_cons]

/-- Claim C10 (amended): a scrape dereferences, with no nil check, the
CreatedAt and LastUpdated pointers of every item of the open collection
and additionally the outcome pointer of every item of the closed and
merged collections — and only those.  `Collect` completes without
panicking exactly when all of those pointers are non-nil; timestamp
pointers elsewhere in the snapshot (in particular in the `MergeRequests`
info collection) are never dereferenced and cannot crash the scrape. -/
theorem claim_C10_amended (now : Int) (stats : client.Stats) :
    (collector.Collect now stats).isSome ↔
      (∀ mr ∈ stats.MergeRequestsOpen,
        mr.CreatedAt.isSome ∧ mr.LastUpdated.isSome) ∧
      (∀ mr ∈ stats.MergeRequestsClosed,
        mr.MergeRequest.CreatedAt.isSome ∧ mr.MergeRequest.LastUpdated.isSome ∧
          mr.ClosedAt.isSome) ∧
      (∀ mr ∈ stats.MergeRequestsMerged,
        mr.MergeRequest.CreatedAt.isSome ∧ mr.MergeRequest.LastUpdated.isSome ∧
          mr.MergedAt.isSome) := by
  have hO := collectOpenLoop_isSome now stats.MergeRequestsOpen
  have hC := collectClosedLoop_isSome now stats.MergeRequestsClosed
  have hM := collectMergedLoop_isSome now stats.MergeRequestsMerged
  simp only [collector.Collect, client.GetStats, collector.collectOpenMergeRequestMetrics,
    collector.collectClosedMergeRequestMetrics, collector.collectMergedMergeRequestMetrics]
  rcases hOm : collector.collectOpenLoop now stats.MergeRequestsOpen with - | om <;>
    rw [hOm] at hO
  · simp only [Option.isSome_none] at hO
    simp [← hO]
  rcases hCm : collector.collectClosedLoop now stats.MergeRequestsClosed with - | cm <;>
    rw [hCm] at hC
  · simp only [Option.isSome_none] at hC
    simp [← hC]
  rcases hMm : collector.collectMergedLoop now stats.MergeRequestsMerged with - | mm <;>
    rw [hMm] at hM
  · simp only [Option.isSome_none] at hM
    simp [← hM]
  simp only [Option.isSome_some, true_iff] at hO hC hM
  simp only [Option.isSome_some, true_iff]
  exact ⟨hO, hC, hM⟩

/-- A snapshot whose only entries are info-collection items with nil
timestamp pointers. -/
def statsInfoNilTimes : client.Stats :=
  { Projects := [], MergeRequests := [mrOpenedIn], MergeRequestsOpen := []
    MergeRequestsClosed := [], MergeRequestsMerged := []
    Approvals := [], Changes := [] }

/-- Claim C10 (refuting counterexample): a snapshot containing null
timestamp pointers — in its `MergeRequests` info collection — on which the
scrape nevertheless completes: the info collection's timestamps are never
dereferenced, so "a snapshot containing any null timestamp makes the
scrape crash" is false as stated. -/
theorem claim_C10_counterexample :
    mrOpenedIn ∈ statsInfoNilTimes.MergeRequests ∧
    mrOpenedIn.CreatedAt = none ∧ mrOpenedIn.LastUpdated = none ∧
    (collector.Collect 0 statsInfoNilTimes).isSome = true := by
  refine ⟨by simp [statsInfoNilTimes], rfl, rfl, by with_unfolding_all rfl⟩

/-- A concrete oracle whose project listing has one non-empty page followed
by an empty page. -/
def apiProjPages : GitlabAPI :=
  { newClient := .ok ()
    listProjects := fun page _ =>
      if page = 1 then .ok [{ ID := 7, PathWithNamespace := "grp/proj" }]
      else .ok []
    listMergeRequests := fun _ _ => .ok []
    getMergeRequest := fun _ _ => .error "unreached"
    getApprovalConfiguration := fun _ _ => .error "unreached"
    compare := fun _ _ _ => .error "unreached" }

/-- Witness for C9 at a concrete input: one page of one project, then an
empty page; `getProjects` returns that single project mapped to
`ProjectStats`. -/
theorem claim_C9_witness :
    client.getProjects apiProjPages 2 =
      some (.ok [{ ID := "7", PathWithNamespace := "grp/proj" }]) := by
  have h := (claim_C9_get_projects_paging apiProjPages
      [[{ ID := 7, PathWithNamespace := "grp/proj" }]] 2
    (by
      intro i h
      simp only [List.length_singleton] at h
      have h0 : i = 0 := Nat.lt_one_iff.mp h
      subst h0
      rfl)
    (by
      intro p hp
      simp only [List.mem_singleton] at hp
      subst hp
      simp)
    (by norm_num)).1 rfl
  simpa using h

end GitlabExporter
